import Mathlib

/-!
Shallow embedding of the authorization and rate-limiting core of the
bun-hono-api-starter repository: token issuance (src/utils/genToken.ts),
the auth gate and role gate (src/middlewares/auth.middlewares.ts), the
fixed-window rate limiter (src/middlewares/rateLimit.middlewares.ts), and
the user controllers and model (src/controllers/user.controllers.ts,
the mongoose user schema file).

JavaScript strings are modelled by Lean `String`; the handful of
JavaScript string primitives the code uses (startsWith, toLowerCase,
trim, the two regexes) are defined below over the character list,
restricted to the ASCII range the repository actually touches.
-/

namespace ApiStarter

/-- The whitespace class of the JavaScript regexes and of trim,
restricted to the ASCII range plus NBSP: space, tab, line feed,
carriage return, vertical tab, form feed, no-break space. -/
def isJsWhitespace (ch : Char) : Bool :=
  ch.toNat = 32 ∨ ch.toNat = 9 ∨ ch.toNat = 10 ∨ ch.toNat = 13 ∨
    ch.toNat = 11 ∨ ch.toNat = 12 ∨ ch.toNat = 160

/-- ASCII case folding of JavaScript toLowerCase. -/
def jsCharToLower (ch : Char) : Char :=
  if 65 ≤ ch.toNat ∧ ch.toNat ≤ 90 then Char.ofNat (ch.toNat + 32) else ch

/-- JavaScript String.prototype.toLowerCase. -/
def jsToLower (s : String) : String :=
  ⟨s.data.map jsCharToLower⟩

/-- Drop the leading whitespace characters of a character list. -/
def dropLeadingWs : List Char → List Char
  | [] => []
  | c :: cs => if isJsWhitespace c then dropLeadingWs cs else c :: cs

/-- Drop the trailing, then the leading, whitespace of a character
list. -/
def trimList (l : List Char) : List Char :=
  dropLeadingWs (dropLeadingWs l.reverse).reverse

/-- JavaScript String.prototype.trim. -/
def jsTrim (s : String) : String :=
  ⟨trimList s.data⟩

/-- The head of the list, when present, is not whitespace. -/
def wsHeadFree : List Char → Prop
  | [] => True
  | c :: _ => isJsWhitespace c = false

/-- JavaScript String.prototype.startsWith. -/
def jsStartsWith (s p : String) : Bool :=
  p.data.isPrefixOf s.data

/-- The normalization applied to every email before a store lookup or
write: toLowerCase followed by trim, exactly as in the controllers. -/
def normEmail (e : String) : String :=
  jsTrim (jsToLower e)

/-- Truthiness of an optional JavaScript string: undefined and the empty
string are falsy, every other string is truthy. -/
def optTruthy : Option String → Bool
  | none => false
  | some s => s ≠ ""

/-! ## The email regex of the controllers

The regex in createUser and editProfile matches a full string of the
shape A at-sign R where A is a nonempty run of characters that are
neither whitespace nor at-signs, and R splits as B dot C with B and C
nonempty runs over the same class.  Over the whole string this holds
iff: there is exactly one at-sign, it is not first, no character is
whitespace, and the part after the at-sign has a dot at an interior
position. -/

/-- Split a character list at the first occurrence of a character. -/
def breakAt (ch : Char) : List Char → Option (List Char × List Char)
  | [] => none
  | c :: cs =>
    if c = ch then some ([], cs)
    else
      match breakAt ch cs with
      | none => none
      | some (a, b) => some (c :: a, b)

/-- Does the list have a dot at a position other than the first and the
last? -/
def interiorDot : List Char → Bool
  | [] => false
  | _ :: rest => rest.dropLast.contains '.'

/-- The email validation regex of the controllers. -/
def emailValid (s : String) : Bool :=
  match breakAt '@' s.data with
  | none => false
  | some (a, r) =>
    a ≠ [] ∧ a.all (fun ch => ¬ isJsWhitespace ch) ∧
      ¬ r.contains '@' ∧ r.all (fun ch => ¬ isJsWhitespace ch) ∧ interiorDot r

/-! ## Tokens (src/utils/genToken.ts and the hono/jwt collaborator)

The JWT payload carries the fields genToken writes and protect reads.
The subject field is optional to cover tokens minted elsewhere. -/

structure JwtPayload where
  id : Option String
  iat : Nat
  exp : Option Nat
deriving DecidableEq

/-- A structurally well-formed token, remembering the secret it was
signed with. -/
structure SignedToken where
  payload : JwtPayload
  secret : String
deriving DecidableEq

/-- A token string decodes either to a signed token or to garbage. -/
inductive TokenBlob
  | signed (t : SignedToken)
  | malformed
deriving DecidableEq

/-- genToken from src/utils/genToken.ts: claims are the subject id,
iat = now, exp = now + 7 days in seconds. Signing itself is the
hono/jwt collaborator, modelled by recording the payload and secret. -/
def genToken (secret id : String) (now : Nat) : SignedToken :=
  ⟨⟨some id, now, some (now + 60 * 60 * 24 * 7)⟩, secret⟩

/-- Modelled from the spec: the hono/jwt verify collaborator is not
part of this repository.  Per the spec it cryptographically validates
the signature and checks exp against the current time, a token being
valid only if its signature verifies and the current time is strictly
below the expiry.  Returns the payload on success, nothing on any
failure (the implementation throws, which protect catches). -/
def jwtVerify (blob : TokenBlob) (secret : String) (now : Nat) : Option JwtPayload :=
  match blob with
  | .malformed => none
  | .signed t =>
    if t.secret = secret then
      match t.payload.exp with
      | some e => if now < e then some t.payload else none
      | none => some t.payload
    else none

/-! ## The auth gate (src/middlewares/auth.middlewares.ts) -/

/-- The stored user document (the mongoose model, password field as
persisted). -/
structure UserDoc where
  id : String
  name : String
  email : String
  password : String
  isAdmin : Bool
deriving DecidableEq

/-- Outcome of the protect middleware: either an HTTP 401 with the
thrown message, or the pipeline continues with the context user set. -/
inductive ProtectResult
  | unauthorized (msg : String)
  | ok (u : UserDoc)
deriving DecidableEq

/-- The regex replace that strips the scheme word: case-insensitive
Bearer at the start followed by at least one whitespace character, the
whitespace run being consumed greedily; a non-matching string is
returned unchanged. -/
def headIsWs : List Char → Bool
  | [] => false
  | w :: _ => isJsWhitespace w

def stripBearer (s : String) : String :=
  match s.data with
  | b :: e :: a :: r :: e2 :: r2 :: rest =>
    if ([b, e, a, r, e2, r2].map jsCharToLower = ['b', 'e', 'a', 'r', 'e', 'r']) ∧
        headIsWs rest then
      ⟨rest.dropWhile isJsWhitespace⟩
    else s
  | _ => s

/-- The defensive double check of protect: the exp claim is truthy
(present and nonzero) and strictly below the current time. -/
def expExpiredCheck (exp : Option Nat) (now : Nat) : Bool :=
  match exp with
  | some e => e ≠ 0 ∧ e < now
  | none => false

/-- The body of protect after the scheme prefix has been stripped:
verify the token, check the id claim is truthy, re-check expiry, load
the user (password excluded), attach it.  Exceptions thrown by verify
are caught and replaced by the uniform invalid-token message;
HTTPExceptions raised by the inner checks are re-thrown unchanged. -/
def protectToken (decode : String → TokenBlob) (secret : String)
    (findById : String → Option UserDoc) (now : Nat) (token : String) : ProtectResult :=
  match jwtVerify (decode token) secret now with
  | none => .unauthorized "Invalid token! Not authorized!"
  | some payload =>
    match payload.id with
    | none => .unauthorized "Invalid token payload!"
    | some i =>
      if i = "" then .unauthorized "Invalid token payload!"
      else if expExpiredCheck payload.exp now then .unauthorized "Token has expired!"
      else
        match findById i with
        | none => .unauthorized "User not found!"
        | some u => .ok u

/-- protect from src/middlewares/auth.middlewares.ts: reject when the
Authorization header is absent or does not start with the literal
string Bearer-space (a case-sensitive startsWith), strip the scheme
word, then run the verification body. -/
def protect (decode : String → TokenBlob) (secret : String)
    (findById : String → Option UserDoc) (now : Nat)
    (authHeader : Option String) : ProtectResult :=
  match authHeader with
  | none => .unauthorized "Not authorized! No token provided!"
  | some h =>
    if jsStartsWith h "Bearer " then
      protectToken decode secret findById now (stripBearer h)
    else .unauthorized "Not authorized! No token provided!"

/-- Outcome of the isAdmin role gate: an HTTP error with its status
code and message, or the pipeline continues. -/
inductive GateResult
  | httpError (status : Nat) (msg : String)
  | proceed
deriving DecidableEq

/-- isAdmin from src/middlewares/auth.middlewares.ts, as a function of
the context user binding. -/
def isAdminGate (ctxUser : Option UserDoc) : GateResult :=
  match ctxUser with
  | none => .httpError 401 "Not authorized! No user context!"
  | some u =>
    if u.isAdmin then .proceed
    else .httpError 403 "Not authorized as an admin!"

/-! ## The rate limiter (src/middlewares/rateLimit.middlewares.ts) -/

structure RateLimitEntry where
  count : Nat
  resetTime : Nat
deriving DecidableEq

/-- The in-memory store, keyed by the composite limiter key. -/
def RateStore : Type := String → Option RateLimitEntry

def emptyStore : RateStore := fun _ => none

def setEntry (s : RateStore) (k : String) (e : RateLimitEntry) : RateStore :=
  fun k2 => if k2 = k then some e else s k2

/-- The configuration of one limiter instance.  The keyTag field is the
key-isolating option of the source (its keyPrefix), prepended with a
colon to the client key. -/
structure RateLimitOptions where
  windowMs : Nat
  max : Nat
  message : String
  keyTag : String
deriving DecidableEq

/-- The defaults of the options object in the source. -/
def rateLimitDefaults : RateLimitOptions :=
  ⟨60 * 1000, 100, "Too many requests, please try again later.", "default"⟩

/-- The strict limiter instance for login and registration. -/
def strictRateLimitOpts : RateLimitOptions :=
  ⟨15 * 60 * 1000, 5, "Too many attempts, please try again after 15 minutes.", "strict"⟩

/-- The standard limiter instance applied globally. -/
def standardRateLimitOpts : RateLimitOptions :=
  ⟨60 * 1000, 60, "Too many requests, please slow down.", "standard"⟩

/-- The composite store key of a limiter instance for a client key. -/
def rlKey (opts : RateLimitOptions) (clientKey : String) : String :=
  opts.keyTag ++ ":" ++ clientKey

/-- Outcome of one pass through the limiter middleware, with the
emitted header values.  A rejection is the thrown HTTPException with
its status 429, plus the headers set before the throw. -/
inductive RateOutcome
  | admitted (limit remaining reset : Nat)
  | rejected (status retryAfter limit remaining reset : Nat) (message : String)
deriving DecidableEq

def RateOutcome.isAdmitted : RateOutcome → Bool
  | .admitted _ _ _ => true
  | .rejected _ _ _ _ _ _ => false

/-- Nat ceiling division, the Math.ceil of the source on nonnegative
millisecond quantities. -/
def ceilDiv (a b : Nat) : Nat := (a + b - 1) / b

/-- One pass of the middleware returned by rateLimit(options): look up
the composite key; on a missing or expired entry store a fresh one with
count 1 and reset now + windowMs and admit; otherwise increment the
count first, then reject with 429 when the count exceeds max, else
admit with the remaining and reset headers read back from the store. -/
def rateLimitStep (opts : RateLimitOptions) (clientKey : String) (now : Nat)
    (store : RateStore) : RateOutcome × RateStore :=
  let key := rlKey opts clientKey
  let refresh : RateOutcome × RateStore :=
    (.admitted opts.max (opts.max - 1) (ceilDiv (now + opts.windowMs) 1000),
      setEntry store key ⟨1, now + opts.windowMs⟩)
  match store key with
  | none => refresh
  | some entry =>
    if entry.resetTime < now then refresh
    else
      let c := entry.count + 1
      let s2 := setEntry store key ⟨c, entry.resetTime⟩
      if opts.max < c then
        (.rejected 429 (ceilDiv (entry.resetTime - now) 1000) opts.max 0
          (ceilDiv entry.resetTime 1000) opts.message, s2)
      else
        (.admitted opts.max (opts.max - c) (ceilDiv entry.resetTime 1000), s2)

/-- Run one limiter instance over a sequence of request times for a
fixed client key, collecting the outcomes. -/
def runRequests (opts : RateLimitOptions) (clientKey : String) :
    List Nat → RateStore → List RateOutcome × RateStore
  | [], s => ([], s)
  | t :: ts, s =>
    let step := rateLimitStep opts clientKey t s
    let rest := runRequests opts clientKey ts step.2
    (step.1 :: rest.1, rest.2)

/-! ## The credential store (the mongoose user schema file)

Bun.password with the bcrypt algorithm at cost 10 is an external
collaborator. -/

/-- Modelled from the spec: Bun.password.hash, the one-way bcrypt
transform at the configured cost, modelled as an injective tagged
encoding of the plaintext. -/
def bcryptHash (cost : Nat) (plaintext : String) : String :=
  "bcrypt" ++ Nat.repr cost ++ ":" ++ plaintext

/-- Modelled from the spec: Bun.password.verify, true iff hashing the
entered password under the stored algorithm (cost 10 in this
repository) reproduces the stored string; false, never a throw, on a
malformed stored value.  The overwhelming-probability collision bound
of the spec is modelled as exact injectivity. -/
def verifyPassword (entered stored : String) : Bool :=
  stored = bcryptHash 10 entered

/-- A user document together with the mongoose modified-paths tracking
for the password field, as consumed by the pre-save hook. -/
structure TrackedUser where
  doc : UserDoc
  passwordModified : Bool
deriving DecidableEq

/-- The pre-save hook of the user schema: when the password path was
not modified do nothing, otherwise replace the password field by its
bcrypt hash at cost 10.  Returns the document as persisted. -/
def preSaveHook (u : TrackedUser) : UserDoc :=
  if u.passwordModified then
    ⟨u.doc.id, u.doc.name, u.doc.email, bcryptHash 10 u.doc.password, u.doc.isAdmin⟩
  else u.doc

/-! ## The user controllers (src/controllers/user.controllers.ts) -/

/-- The JSON body of a registration request.  The controller
destructures only name, email and password; a role or isAdmin member
of the body is never read. -/
structure CreateBody where
  name : Option String
  email : Option String
  password : Option String
  isAdmin : Option Bool
  role : Option String
deriving DecidableEq

/-- The success envelope data of registration and login: the response
fields and the minted token.  The stored password hash is not among
the fields. -/
structure RespData where
  id : String
  name : String
  email : String
  isAdmin : Bool
  token : SignedToken
  message : String
deriving DecidableEq

/-- Outcome of createUser: a thrown HTTPException, or the stored
document together with the response envelope. -/
inductive CreateResult
  | httpError (status : Nat) (msg : String)
  | created (stored : UserDoc) (resp : RespData)
deriving DecidableEq

/-- createUser: validate presence, email shape and password length,
reject a duplicate of the normalized email, then create the document
with isAdmin pinned to false (the hook hashes the password), mint a
token for the new id and answer with the envelope. -/
def createUser (findByEmail : String → Option UserDoc) (newId : String)
    (secret : String) (now : Nat) (body : CreateBody) : CreateResult :=
  match body.name, body.email, body.password with
  | some n, some e, some p =>
    if n = "" ∨ e = "" ∨ p = "" then
      .httpError 400 "Please provide name, email, and password"
    else if ¬ emailValid e then
      .httpError 400 "Please provide a valid email"
    else if p.length < 6 then
      .httpError 400 "Password must be at least 6 characters"
    else
      match findByEmail (normEmail e) with
      | some _ => .httpError 400 "User already exists"
      | none =>
        let stored : UserDoc :=
          ⟨newId, jsTrim n, normEmail e, bcryptHash 10 p, false⟩
        .created stored
          ⟨stored.id, stored.name, stored.email, stored.isAdmin,
            genToken secret newId now, "User created successfully"⟩
  | _, _, _ => .httpError 400 "Please provide name, email, and password"

/-- The JSON body of a login request. -/
structure LoginBody where
  email : Option String
  password : Option String
deriving DecidableEq

/-- Outcome of loginUser. -/
inductive LoginResult
  | httpError (status : Nat) (msg : String)
  | ok (resp : RespData)
deriving DecidableEq

/-- loginUser: require both fields truthy, look the user up by the
normalized email, compare the password against the stored hash, mint a
token. -/
def loginUser (findByEmail : String → Option UserDoc) (secret : String)
    (now : Nat) (body : LoginBody) : LoginResult :=
  match body.email, body.password with
  | some e, some p =>
    if e = "" ∨ p = "" then
      .httpError 400 "Please provide an email and password"
    else
      match findByEmail (normEmail e) with
      | none => .httpError 401 "No user found with this email"
      | some user =>
        if verifyPassword p user.password then
          .ok ⟨user.id, user.name, user.email, user.isAdmin,
            genToken secret user.id now, "User logged in successfully"⟩
        else .httpError 401 "Invalid credentials"
  | _, _ => .httpError 400 "Please provide an email and password"

/-- The JSON body of a profile edit request. -/
structure EditBody where
  name : Option String
  email : Option String
  password : Option String
deriving DecidableEq

/-- The password-free response envelope of editProfile. -/
structure ProfileResp where
  id : String
  name : String
  email : String
  isAdmin : Bool
deriving DecidableEq

/-- Outcome of editProfile: a thrown HTTPException, or the persisted
document together with the response. -/
inductive EditResult
  | httpError (status : Nat) (msg : String)
  | ok (saved : UserDoc) (resp : ProfileResp)
deriving DecidableEq

/-- Last stage of editProfile: assign the trimmed name when truthy,
save through the pre-save hook, answer without the password. -/
def editFinish (body : EditBody) (u2 : TrackedUser) : EditResult :=
  let u3 : TrackedUser :=
    match body.name with
    | some n =>
      if n = "" then u2
      else ⟨⟨u2.doc.id, jsTrim n, u2.doc.email, u2.doc.password, u2.doc.isAdmin⟩,
        u2.passwordModified⟩
    | none => u2
  let saved := preSaveHook u3
  .ok saved ⟨saved.id, saved.name, saved.email, saved.isAdmin⟩

/-- Password stage of editProfile: for a truthy password, validate its
length and assign it, which marks the password path modified. -/
def editPassword (body : EditBody) (u1 : TrackedUser) : EditResult :=
  match body.password with
  | some p =>
    if p = "" then editFinish body u1
    else if p.length < 6 then
      .httpError 400 "Password must be at least 6 characters"
    else editFinish body ⟨⟨u1.doc.id, u1.doc.name, u1.doc.email, p, u1.doc.isAdmin⟩, true⟩
  | none => editFinish body u1

/-- editProfile: for a truthy email, validate it, reject when the
normalized email belongs to another user (findOtherByEmail models the
findOne with the id-excluding filter), assign the normalized email,
then run the password and name stages and save. -/
def editProfile (findOtherByEmail : String → Option UserDoc)
    (body : EditBody) (u0 : TrackedUser) : EditResult :=
  match body.email with
  | some e =>
    if e = "" then editPassword body u0
    else if ¬ emailValid e then .httpError 400 "Please provide a valid email"
    else
      match findOtherByEmail (normEmail e) with
      | some _ => .httpError 400 "Email already in use"
      | none =>
        editPassword body
          ⟨⟨u0.doc.id, u0.doc.name, normEmail e, u0.doc.password, u0.doc.isAdmin⟩,
            u0.passwordModified⟩
  | none => editPassword body u0

/-! ## Concrete fixtures shared by the evaluation theorems -/

def demoUser : UserDoc := ⟨"u1", "Alice", "alice@example.com", "h", false⟩

def demoAdmin : UserDoc := ⟨"u2", "Root", "root@example.com", "h", true⟩

def demoToken : SignedToken := genToken "secret1" "u1" 1000

def demoDecode : String → TokenBlob :=
  fun s => if s = "tok1" then .signed demoToken else .malformed

def demoFind : String → Option UserDoc :=
  fun s => if s = "u1" then some demoUser else none

def demoUserHashed : UserDoc :=
  ⟨"u1", "Alice", "alice@example.com", bcryptHash 10 "123456", false⟩

def demoTokenNoId : SignedToken := ⟨⟨none, 1000, some 700000⟩, "secret1"⟩

def demoDecodeNoId : String → TokenBlob :=
  fun s => if s = "tokA" then .signed demoTokenNoId else .malformed

/-! ## Helper lemmas on strings -/

theorem string_eq_of_data_eq {a b : String} (h : a.data = b.data) : a = b := by
  cases a
  cases b
  exact congrArg String.mk h

theorem string_append_left_cancel {a b c : String} (h : a ++ b = a ++ c) : b = c := by
  have hd : a.data ++ b.data = a.data ++ c.data := by
    have h2 := congrArg String.data h
    simpa [String.data_append] using h2
  exact string_eq_of_data_eq (List.append_cancel_left hd)

theorem string_append_right_cancel {a b c : String} (h : a ++ c = b ++ c) : a = b := by
  have hd : a.data ++ c.data = b.data ++ c.data := by
    have h2 := congrArg String.data h
    simpa [String.data_append] using h2
  exact string_eq_of_data_eq (List.append_cancel_right hd)

theorem bcryptHash_injective {cost : Nat} {p q : String}
    (h : bcryptHash cost p = bcryptHash cost q) : p = q := by
  exact string_append_left_cancel h

theorem rlKey_injective_of_tag {o1 o2 : RateLimitOptions} {ck : String}
    (h : rlKey o1 ck = rlKey o2 ck) : o1.keyTag = o2.keyTag := by
  have h1 : (o1.keyTag ++ ":") ++ ck = (o2.keyTag ++ ":") ++ ck := h
  have h2 : o1.keyTag ++ ":" = o2.keyTag ++ ":" := string_append_right_cancel h1
  exact string_append_right_cancel h2

/-! ## C7: the role gate -/

/-- C7: after protect, the isAdmin gate lets a context principal with a
true role flag through, rejects a known principal without the flag with
a 403 forbidden error, rejects a missing context principal with a 401
unauthorized error, and the 403 outcome is distinct from the 401
outcome. -/
theorem isAdmin_gate_behavior (ctxUser : Option UserDoc) :
    (∀ u, ctxUser = some u → u.isAdmin = true → isAdminGate ctxUser = .proceed) ∧
    (∀ u, ctxUser = some u → u.isAdmin = false →
      isAdminGate ctxUser = .httpError 403 "Not authorized as an admin!") ∧
    (ctxUser = none → isAdminGate ctxUser = .httpError 401 "Not authorized! No user context!") ∧
    (GateResult.httpError 403 "Not authorized as an admin!" ≠
      GateResult.httpError 401 "Not authorized! No user context!") := by
  refine ⟨?_, ?_, ?_, by decide⟩
  · intro u hu ha
    subst hu
    simp [isAdminGate, ha]
  · intro u hu ha
    subst hu
    simp [isAdminGate, ha]
  · intro h
    subst h
    rfl

/-- Evaluation of the role gate theorem on concrete context values. -/
theorem isAdmin_gate_behavior_eval :
    isAdminGate (some demoAdmin) = .proceed ∧
    isAdminGate (some demoUser) = .httpError 403 "Not authorized as an admin!" ∧
    isAdminGate none = .httpError 401 "Not authorized! No user context!" :=
  ⟨(isAdmin_gate_behavior (some demoAdmin)).1 demoAdmin rfl rfl,
    (isAdmin_gate_behavior (some demoUser)).2.1 demoUser rfl rfl,
    (isAdmin_gate_behavior none).2.2.1 rfl⟩

/-! ## C8: the password credential -/

/-- C8: verifying a password against the stored hash produced from it
succeeds, and verifying any other password against that hash fails
(the probabilistic collision bound of the spec is exact in the
model). -/
theorem password_hash_verify (p p2 : String) :
    verifyPassword p (bcryptHash 10 p) = true ∧
    (p2 ≠ p → verifyPassword p2 (bcryptHash 10 p) = false) := by
  constructor
  · simp [verifyPassword]
  · intro hne
    simp only [verifyPassword, decide_eq_false_iff_not]
    intro heq
    exact hne (bcryptHash_injective heq).symm

/-- Evaluation of the password theorem on concrete passwords. -/
theorem password_hash_verify_eval :
    verifyPassword "123456" (bcryptHash 10 "123456") = true ∧
    verifyPassword "abcdef" (bcryptHash 10 "123456") = false :=
  ⟨(password_hash_verify "123456" "abcdef").1,
    (password_hash_verify "123456" "abcdef").2 (by decide)⟩

/-! ## C4: registration never honours a role field -/

/-- C4: every document created by registration carries isAdmin false,
the response reports isAdmin false, and two request bodies agreeing on
name, email and password (so differing at most in a supplied role or
isAdmin member) produce identical creation outcomes. -/
theorem createUser_role_pinned (findByEmail : String → Option UserDoc)
    (newId secret : String) (now : Nat) :
    (∀ body stored resp,
      createUser findByEmail newId secret now body = .created stored resp →
      stored.isAdmin = false ∧ resp.isAdmin = false) ∧
    (∀ b1 b2 : CreateBody, b1.name = b2.name → b1.email = b2.email →
      b1.password = b2.password →
      createUser findByEmail newId secret now b1 =
        createUser findByEmail newId secret now b2) := by
  constructor
  · intro body stored resp h
    unfold createUser at h
    rcases body with ⟨n, e, p, a, r⟩
    cases n <;> cases e <;> cases p <;> simp_all
    split at h
    · cases h
    · split at h
      · cases h
      · split at h
        · cases h
        · split at h
          · cases h
          · cases h
            constructor <;> rfl
  · intro b1 b2 hn he hp
    rcases b1 with ⟨n1, e1, p1, a1, r1⟩
    rcases b2 with ⟨n2, e2, p2, a2, r2⟩
    simp only at hn he hp
    subst hn
    subst he
    subst hp
    rfl

/-- Evaluation of the registration theorem: a body that supplies
isAdmin true and a role string yields the same outcome as the body
without them, and the created document and response carry isAdmin
false. -/
theorem createUser_role_pinned_eval :
    createUser (fun _ => none) "id1" "s" 0
        ⟨some "Al", some "a@b.co", some "123456", some true, some "admin"⟩ =
      createUser (fun _ => none) "id1" "s" 0
        ⟨some "Al", some "a@b.co", some "123456", none, none⟩ ∧
    (⟨"id1", "Al", "a@b.co", bcryptHash 10 "123456", false⟩ : UserDoc).isAdmin = false ∧
    (⟨"id1", "Al", "a@b.co", false, genToken "s" "id1" 0,
        "User created successfully"⟩ : RespData).isAdmin = false := by
  refine ⟨(createUser_role_pinned (fun _ => none) "id1" "s" 0).2
    ⟨some "Al", some "a@b.co", some "123456", some true, some "admin"⟩
    ⟨some "Al", some "a@b.co", some "123456", none, none⟩ rfl rfl rfl, ?_⟩
  exact (createUser_role_pinned (fun _ => none) "id1" "s" 0).1
    ⟨some "Al", some "a@b.co", some "123456", some true, some "admin"⟩
    ⟨"id1", "Al", "a@b.co", bcryptHash 10 "123456", false⟩
    ⟨"id1", "Al", "a@b.co", false, genToken "s" "id1" 0, "User created successfully"⟩
    (by decide)

/-! ## C5: the scheme prefix gate of protect -/

theorem protectToken_ne_noToken (decode : String → TokenBlob) (secret : String)
    (findById : String → Option UserDoc) (now : Nat) (token : String) :
    protectToken decode secret findById now token ≠
      .unauthorized "Not authorized! No token provided!" := by
  unfold protectToken
  cases hv : jwtVerify (decode token) secret now with
  | none => simp
  | some payload =>
    obtain ⟨pid, piat, pexp⟩ := payload
    cases pid with
    | none => simp
    | some i =>
      by_cases hi : i = ""
      · simp [hi]
      · simp only [hi, if_false, if_neg]
        by_cases he : expExpiredCheck pexp now = true
        · simp [hi, he]
        · cases hf : findById i with
          | none => simp [hi, he, hf]
          | some u => simp [hi, he, hf]

/-- C5 counterexample: a header carrying the scheme word in lowercase
is rejected by protect with the no-token error even though the very
same token verifies and loads a user when the scheme word is written
Bearer, so the prefix comparison is not case-insensitive. -/
theorem protect_lowercase_scheme_rejected :
    protect demoDecode "secret1" demoFind 1000 (some "bearer tok1") =
      .unauthorized "Not authorized! No token provided!" ∧
    protect demoDecode "secret1" demoFind 1000 (some "Bearer tok1") = .ok demoUser := by
  exact ⟨by decide, by decide⟩

/-- C5 amended: protect rejects with the no-token unauthorized error
exactly when the Authorization header is missing or does not start
with the exact, case-sensitive prefix Bearer-space; when that exact
prefix is present the scheme word and the following whitespace run are
stripped and verification proceeds on the remainder. -/
theorem protect_scheme_gate (decode : String → TokenBlob) (secret : String)
    (findById : String → Option UserDoc) (now : Nat) :
    (∀ hdr : Option String,
      protect decode secret findById now hdr =
          .unauthorized "Not authorized! No token provided!" ↔
        (hdr = none ∨ ∃ h, hdr = some h ∧ jsStartsWith h "Bearer " = false)) ∧
    (∀ h : String, jsStartsWith h "Bearer " = true →
      protect decode secret findById now (some h) =
        protectToken decode secret findById now (stripBearer h)) := by
  constructor
  · intro hdr
    cases hdr with
    | none => simp [protect]
    | some h =>
      by_cases hb : jsStartsWith h "Bearer " = true
      · simp only [protect, hb, if_pos rfl]
        constructor
        · intro hcontra
          exact absurd hcontra (protectToken_ne_noToken decode secret findById now _)
        · rintro (hc | ⟨h2, hh2, hsw⟩)
          · cases hc
          · cases hh2
            rw [hb] at hsw
            cases hsw
      · have hb2 : jsStartsWith h "Bearer " = false := by
          cases hx : jsStartsWith h "Bearer "
          · rfl
          · exact absurd hx hb
        have hpe : protect decode secret findById now (some h) =
            .unauthorized "Not authorized! No token provided!" := by
          simp [protect, hb2]
        rw [hpe]
        exact iff_of_true rfl (Or.inr ⟨h, rfl, hb2⟩)
  · intro h hb
    simp [protect, hb]

/-- Evaluation of the amended scheme gate theorem on a concrete
header. -/
theorem protect_scheme_gate_eval :
    protect demoDecode "secret1" demoFind 1000 (some "bearer tok1") =
        .unauthorized "Not authorized! No token provided!" ∧
    protect demoDecode "secret1" demoFind 1000 (some "Bearer tok1") =
      protectToken demoDecode "secret1" demoFind 1000 (stripBearer "Bearer tok1") :=
  ⟨((protect_scheme_gate demoDecode "secret1" demoFind 1000).1
      (some "bearer tok1")).mpr (Or.inr ⟨"bearer tok1", rfl, by decide⟩),
    (protect_scheme_gate demoDecode "secret1" demoFind 1000).2 "Bearer tok1" (by decide)⟩

/-! ## C3: uniformity of the failure outcome of protect -/

/-- C3 counterexample: two failing verifications return different
unauthorized outcomes — a signed, unexpired token without a subject
claim yields the invalid-payload message while a malformed token
yields the invalid-token message — so the failure outcome is not a
single uniform one and reveals which sub-check failed. -/
theorem protect_failures_not_uniform :
    protect demoDecodeNoId "secret1" demoFind 1000 (some "Bearer tokA") =
      .unauthorized "Invalid token payload!" ∧
    protect demoDecodeNoId "secret1" demoFind 1000 (some "Bearer zzz") =
      .unauthorized "Invalid token! Not authorized!" ∧
    ProtectResult.unauthorized "Invalid token payload!" ≠
      ProtectResult.unauthorized "Invalid token! Not authorized!" := by
  exact ⟨by decide, by decide, by decide⟩

/-- C3 amended: every failing verification yields a 401 unauthorized
outcome, and the bad-signature, malformed-structure and expired cases
all yield one identical message; but a signed, unexpired token missing
its subject claim yields a distinct 401 message, so the sub-check is
partially revealed. -/
theorem protect_failure_messages (decode : String → TokenBlob) (secret : String)
    (findById : String → Option UserDoc) (now : Nat) (h : String)
    (hb : jsStartsWith h "Bearer " = true) :
    (decode (stripBearer h) = .malformed →
      protect decode secret findById now (some h) =
        .unauthorized "Invalid token! Not authorized!") ∧
    (∀ t, decode (stripBearer h) = .signed t → t.secret ≠ secret →
      protect decode secret findById now (some h) =
        .unauthorized "Invalid token! Not authorized!") ∧
    (∀ t e, decode (stripBearer h) = .signed t → t.secret = secret →
      t.payload.exp = some e → e ≤ now →
      protect decode secret findById now (some h) =
        .unauthorized "Invalid token! Not authorized!") ∧
    (∀ t, decode (stripBearer h) = .signed t → t.secret = secret →
      (t.payload.exp = none ∨ ∃ e, t.payload.exp = some e ∧ now < e) →
      t.payload.id = none →
      protect decode secret findById now (some h) =
        .unauthorized "Invalid token payload!") := by
  refine ⟨?_, ?_, ?_, ?_⟩
  · intro hdec
    simp [protect, hb, protectToken, hdec, jwtVerify]
  · intro t hdec hsec
    simp [protect, hb, protectToken, hdec, jwtVerify, hsec]
  · intro t e hdec hsec hexp hle
    have hlt : ¬ now < e := by omega
    simp [protect, hb, protectToken, hdec, jwtVerify, hsec, hexp, hlt]
  · intro t hdec hsec hexp hid
    rcases hexp with hnone | ⟨e, he, hlt⟩
    · simp [protect, hb, protectToken, hdec, jwtVerify, hsec, hnone, hid]
    · simp [protect, hb, protectToken, hdec, jwtVerify, hsec, he, hlt, hid]

/-- Evaluation of the amended failure message theorem on a concrete
malformed token. -/
theorem protect_failure_messages_eval :
    protect demoDecodeNoId "secret1" demoFind 1000 (some "Bearer zzz") =
      .unauthorized "Invalid token! Not authorized!" :=
  (protect_failure_messages demoDecodeNoId "secret1" demoFind 1000
    "Bearer zzz" (by decide)).1 (by decide)

/-! ## C1: the token lifetime window -/

/-- C1: a token minted by genToken at time T carries iat = T and
exp = T + 604800; with the subject stored, protect accepts the token
at every current time in the window from T inclusive to T + 604800
exclusive, and rejects it with an unauthorized error at every current
time from T + 604800 on. -/
theorem genToken_protect_window (secret id : String) (hid : id ≠ "")
    (u : UserDoc) (T now : Nat) :
    ((genToken secret id T).payload.iat = T ∧
      (genToken secret id T).payload.exp = some (T + 604800)) ∧
    (T ≤ now → now < T + 604800 →
      protect (fun s => if s = "tok" then .signed (genToken secret id T) else .malformed)
        secret (fun s => if s = id then some u else none) now
        (some "Bearer tok") = .ok u) ∧
    (T + 604800 ≤ now →
      protect (fun s => if s = "tok" then .signed (genToken secret id T) else .malformed)
        secret (fun s => if s = id then some u else none) now
        (some "Bearer tok") = .unauthorized "Invalid token! Not authorized!") := by
  have hsw : jsStartsWith "Bearer tok" "Bearer " = true := by decide
  have hsb : stripBearer "Bearer tok" = "tok" := by decide
  refine ⟨⟨rfl, by simp [genToken]⟩, ?_, ?_⟩
  · intro _ hlt
    have hexp : now < T + 60 * 60 * 24 * 7 := by omega
    have hchk : expExpiredCheck (some (T + 60 * 60 * 24 * 7)) now = false := by
      simp [expExpiredCheck]
      omega
    simp [protect, hsw, hsb, protectToken, jwtVerify, genToken, hexp, hid, hchk]
  · intro hge
    have hexp : ¬ now < T + 60 * 60 * 24 * 7 := by omega
    simp [protect, hsw, hsb, protectToken, jwtVerify, genToken, hexp]

/-- Evaluation of the token window theorem: at issue time the token is
accepted, at the expiry instant it is rejected. -/
theorem genToken_protect_window_eval :
    protect (fun s => if s = "tok" then .signed (genToken "s" "u1" 0) else .malformed)
        "s" (fun s => if s = "u1" then some demoUser else none) 0
        (some "Bearer tok") = .ok demoUser ∧
    protect (fun s => if s = "tok" then .signed (genToken "s" "u1" 0) else .malformed)
        "s" (fun s => if s = "u1" then some demoUser else none) 604800
        (some "Bearer tok") = .unauthorized "Invalid token! Not authorized!" :=
  ⟨(genToken_protect_window "s" "u1" (by decide) demoUser 0 0).2.1
      (Nat.le_refl 0) (by decide),
    (genToken_protect_window "s" "u1" (by decide) demoUser 0 604800).2.2
      (Nat.le_refl 604800)⟩

/-! ## C6: limiter instances with distinct key isolation never interact -/

/-- C6: a request processed by a limiter instance never changes the
entry (count or reset time) another instance with a different
key-isolating option holds for the same underlying client key. -/
theorem rateLimit_instances_isolated (o1 o2 : RateLimitOptions) (ck : String)
    (hne : o1.keyTag ≠ o2.keyTag) (now : Nat) (s : RateStore) :
    (rateLimitStep o1 ck now s).2 (rlKey o2 ck) = s (rlKey o2 ck) := by
  have hkey : rlKey o2 ck ≠ rlKey o1 ck :=
    fun h => hne (rlKey_injective_of_tag h).symm
  cases hs : s (rlKey o1 ck) with
  | none => simp [rateLimitStep, hs, setEntry, hkey]
  | some entry =>
    by_cases hr : entry.resetTime < now
    · simp [rateLimitStep, hs, hr, setEntry, hkey]
    · by_cases hm : o1.max < entry.count + 1
      · simp [rateLimitStep, hs, hr, hm, setEntry, hkey]
      · simp [rateLimitStep, hs, hr, hm, setEntry, hkey]

/-- Evaluation of the isolation theorem on the two limiter instances
of the source, sharing one client key. -/
theorem rateLimit_instances_isolated_eval :
    (rateLimitStep strictRateLimitOpts "1.2.3.4" 0 emptyStore).2
        (rlKey standardRateLimitOpts "1.2.3.4") =
      emptyStore (rlKey standardRateLimitOpts "1.2.3.4") :=
  rateLimit_instances_isolated strictRateLimitOpts standardRateLimitOpts "1.2.3.4"
    (by decide) 0 emptyStore

/-! ## C2: the fixed-window counter -/

theorem rateLimitStep_fresh (opts : RateLimitOptions) (ck : String) (t : Nat)
    (s : RateStore)
    (hfresh : s (rlKey opts ck) = none ∨
      ∃ e, s (rlKey opts ck) = some e ∧ e.resetTime < t) :
    rateLimitStep opts ck t s =
      (.admitted opts.max (opts.max - 1) (ceilDiv (t + opts.windowMs) 1000),
        setEntry s (rlKey opts ck) ⟨1, t + opts.windowMs⟩) := by
  rcases hfresh with hnone | ⟨e, hsome, hexp⟩
  · simp [rateLimitStep, hnone]
  · simp [rateLimitStep, hsome, hexp]

theorem rateLimitStep_active_reject (opts : RateLimitOptions) (ck : String)
    (t : Nat) (s : RateStore) (c R : Nat)
    (hs : s (rlKey opts ck) = some ⟨c, R⟩) (hle : t ≤ R) (hm : opts.max < c + 1) :
    rateLimitStep opts ck t s =
      (.rejected 429 (ceilDiv (R - t) 1000) opts.max 0 (ceilDiv R 1000) opts.message,
        setEntry s (rlKey opts ck) ⟨c + 1, R⟩) := by
  have hnlt : ¬ (R < t) := by omega
  simp [rateLimitStep, hs, hnlt, hm]

theorem rateLimitStep_active_admit (opts : RateLimitOptions) (ck : String)
    (t : Nat) (s : RateStore) (c R : Nat)
    (hs : s (rlKey opts ck) = some ⟨c, R⟩) (hle : t ≤ R) (hm : ¬ opts.max < c + 1) :
    rateLimitStep opts ck t s =
      (.admitted opts.max (opts.max - (c + 1)) (ceilDiv R 1000),
        setEntry s (rlKey opts ck) ⟨c + 1, R⟩) := by
  have hnlt : ¬ (R < t) := by omega
  simp [rateLimitStep, hs, hnlt, hm]

/-- Requests inside a live window increment the stored count one by
one; each is admitted while the incremented count stays within max and
rejected with 429 beyond it. -/
theorem runRequests_same_window (opts : RateLimitOptions) (ck : String) :
    ∀ (ts : List Nat) (s : RateStore) (c R : Nat),
      s (rlKey opts ck) = some ⟨c, R⟩ →
      (∀ t ∈ ts, t ≤ R) →
      (runRequests opts ck ts s).2 (rlKey opts ck) = some ⟨c + ts.length, R⟩ ∧
      (∀ i o, (runRequests opts ck ts s).1.get? i = some o →
        (c + i + 1 ≤ opts.max →
          o = .admitted opts.max (opts.max - (c + i + 1)) (ceilDiv R 1000)) ∧
        (opts.max < c + i + 1 →
          ∃ ra, o = .rejected 429 ra opts.max 0 (ceilDiv R 1000) opts.message)) := by
  intro ts
  induction ts with
  | nil =>
    intro s c R hs _
    refine ⟨by simpa [runRequests] using hs, ?_⟩
    intro i o h
    cases h
  | cons t ts ih =>
    intro s c R hs hts
    have hle : t ≤ R := (hts t (List.mem_cons_self t ts))
    have hts2 : ∀ t2 ∈ ts, t2 ≤ R := fun t2 ht2 => hts t2 (List.mem_cons_of_mem t ht2)
    have hs2 : (setEntry s (rlKey opts ck) ⟨c + 1, R⟩) (rlKey opts ck) =
        some ⟨c + 1, R⟩ := by simp [setEntry]
    by_cases hm : opts.max < c + 1
    · have hstep := rateLimitStep_active_reject opts ck t s c R hs hle hm
      have hrun : runRequests opts ck (t :: ts) s =
          ((rateLimitStep opts ck t s).1 ::
              (runRequests opts ck ts (rateLimitStep opts ck t s).2).1,
            (runRequests opts ck ts (rateLimitStep opts ck t s).2).2) := rfl
      rw [hrun, hstep]
      obtain ⟨ihs, iho⟩ := ih (setEntry s (rlKey opts ck) ⟨c + 1, R⟩) (c + 1) R hs2 hts2
      refine ⟨by rw [ihs]; congr 2; simp; omega, ?_⟩
      intro i o h
      cases i with
      | zero =>
        simp only [List.get?_cons_zero, Option.some.injEq] at h
        subst h
        constructor
        · intro hcon
          omega
        · intro _
          exact ⟨ceilDiv (R - t) 1000, rfl⟩
      | succ j =>
        simp only [List.get?_cons_succ] at h
        have := iho j o h
        have harith : c + 1 + j + 1 = c + (j + 1) + 1 := by omega
        rw [harith] at this
        exact this
    · have hstep := rateLimitStep_active_admit opts ck t s c R hs hle hm
      have hrun : runRequests opts ck (t :: ts) s =
          ((rateLimitStep opts ck t s).1 ::
              (runRequests opts ck ts (rateLimitStep opts ck t s).2).1,
            (runRequests opts ck ts (rateLimitStep opts ck t s).2).2) := rfl
      rw [hrun, hstep]
      obtain ⟨ihs, iho⟩ := ih (setEntry s (rlKey opts ck) ⟨c + 1, R⟩) (c + 1) R hs2 hts2
      refine ⟨by rw [ihs]; congr 2; simp; omega, ?_⟩
      intro i o h
      cases i with
      | zero =>
        simp only [List.get?_cons_zero, Option.some.injEq] at h
        subst h
        constructor
        · intro _
          rfl
        · intro hcon
          omega
      | succ j =>
        simp only [List.get?_cons_succ] at h
        have := iho j o h
        have harith : c + 1 + j + 1 = c + (j + 1) + 1 := by omega
        rw [harith] at this
        exact this

theorem runRequests_length (opts : RateLimitOptions) (ck : String) :
    ∀ (ts : List Nat) (s : RateStore),
      (runRequests opts ck ts s).1.length = ts.length := by
  intro ts
  induction ts with
  | nil => intro s; rfl
  | cons t ts ih =>
    intro s
    simpa [runRequests] using ih _

/-- C2 amended: with max at least 1 and a fixed window, starting from
a key with no live entry, of max + 1 requests inside the window the
first max are admitted and the (max + 1)-th is rejected with a 429
carrying the configured message; a further request arriving strictly
after the reset instant is admitted and stores a fresh entry with
count 1 and reset time now + windowMs. -/
theorem rateLimit_window_behavior (opts : RateLimitOptions) (ck : String)
    (hN : 1 ≤ opts.max) (s0 : RateStore) (t1 : Nat) (ts : List Nat)
    (hfresh : s0 (rlKey opts ck) = none ∨
      ∃ e, s0 (rlKey opts ck) = some e ∧ e.resetTime < t1)
    (hlen : ts.length = opts.max)
    (hts : ∀ t ∈ ts, t1 ≤ t ∧ t < t1 + opts.windowMs) :
    (∀ i, i < opts.max → ∃ l r rst,
      (runRequests opts ck (t1 :: ts) s0).1.get? i = some (.admitted l r rst)) ∧
    (∃ ra, (runRequests opts ck (t1 :: ts) s0).1.get? opts.max =
      some (.rejected 429 ra opts.max 0 (ceilDiv (t1 + opts.windowMs) 1000)
        opts.message)) ∧
    ((runRequests opts ck (t1 :: ts) s0).2 (rlKey opts ck) =
      some ⟨opts.max + 1, t1 + opts.windowMs⟩) ∧
    (∀ t2, t1 + opts.windowMs < t2 →
      (rateLimitStep opts ck t2 (runRequests opts ck (t1 :: ts) s0).2).1 =
        .admitted opts.max (opts.max - 1) (ceilDiv (t2 + opts.windowMs) 1000) ∧
      (rateLimitStep opts ck t2 (runRequests opts ck (t1 :: ts) s0).2).2
          (rlKey opts ck) = some ⟨1, t2 + opts.windowMs⟩) := by
  have hstep1 := rateLimitStep_fresh opts ck t1 s0 hfresh
  have hcomb : runRequests opts ck (t1 :: ts) s0 =
      ((RateOutcome.admitted opts.max (opts.max - 1)
          (ceilDiv (t1 + opts.windowMs) 1000)) ::
          (runRequests opts ck ts
            (setEntry s0 (rlKey opts ck) ⟨1, t1 + opts.windowMs⟩)).1,
        (runRequests opts ck ts
          (setEntry s0 (rlKey opts ck) ⟨1, t1 + opts.windowMs⟩)).2) := by
    show ((rateLimitStep opts ck t1 s0).1 ::
        (runRequests opts ck ts (rateLimitStep opts ck t1 s0).2).1,
      (runRequests opts ck ts (rateLimitStep opts ck t1 s0).2).2) = _
    rw [hstep1]
  have hs1 : (setEntry s0 (rlKey opts ck) ⟨1, t1 + opts.windowMs⟩) (rlKey opts ck) =
      some ⟨1, t1 + opts.windowMs⟩ := by simp [setEntry]
  have hts2 : ∀ t ∈ ts, t ≤ t1 + opts.windowMs := by
    intro t ht
    have := hts t ht
    omega
  obtain ⟨ihs, iho⟩ := runRequests_same_window opts ck ts
    (setEntry s0 (rlKey opts ck) ⟨1, t1 + opts.windowMs⟩) 1
    (t1 + opts.windowMs) hs1 hts2
  have hrestlen : (runRequests opts ck ts
      (setEntry s0 (rlKey opts ck) ⟨1, t1 + opts.windowMs⟩)).1.length = ts.length :=
    runRequests_length opts ck ts _
  have hgetsome : ∀ j, j < opts.max → ∃ o, (runRequests opts ck ts
      (setEntry s0 (rlKey opts ck) ⟨1, t1 + opts.windowMs⟩)).1.get? j = some o := by
    intro j hj
    cases hget : (runRequests opts ck ts
        (setEntry s0 (rlKey opts ck) ⟨1, t1 + opts.windowMs⟩)).1.get? j with
    | none =>
      have := List.get?_eq_none.mp hget
      omega
    | some o => exact ⟨o, rfl⟩
  refine ⟨?_, ?_, ?_, ?_⟩
  · intro i hi
    cases i with
    | zero =>
      rw [hcomb]
      exact ⟨opts.max, opts.max - 1, ceilDiv (t1 + opts.windowMs) 1000, rfl⟩
    | succ j =>
      rw [hcomb]
      have hj : j < opts.max := by omega
      obtain ⟨o, hget⟩ := hgetsome j hj
      have hoj := (iho j o hget).1 (by omega)
      refine ⟨opts.max, opts.max - (1 + j + 1), ceilDiv (t1 + opts.windowMs) 1000, ?_⟩
      simp only [List.get?_cons_succ]
      rw [hget, hoj]
  · rw [hcomb]
    have hN1 : opts.max - 1 < opts.max := by omega
    obtain ⟨o, hget⟩ := hgetsome (opts.max - 1) hN1
    obtain ⟨ra, hra⟩ := (iho (opts.max - 1) o hget).2 (by omega)
    refine ⟨ra, ?_⟩
    have hidx : ((RateOutcome.admitted opts.max (opts.max - 1)
          (ceilDiv (t1 + opts.windowMs) 1000)) :: (runRequests opts ck ts
          (setEntry s0 (rlKey opts ck) ⟨1, t1 + opts.windowMs⟩)).1).get? opts.max =
        (runRequests opts ck ts
          (setEntry s0 (rlKey opts ck) ⟨1, t1 + opts.windowMs⟩)).1.get?
          (opts.max - 1) := by
      have hNe : opts.max = (opts.max - 1) + 1 := by omega
      rw [hNe]
      simp
    rw [hidx, hget, hra]
  · rw [hcomb]
    rw [ihs]
    have h1 : 1 + ts.length = opts.max + 1 := by omega
    rw [h1]
  · intro t2 ht2
    have hlive : (runRequests opts ck (t1 :: ts) s0).2 (rlKey opts ck) =
        some ⟨opts.max + 1, t1 + opts.windowMs⟩ := by
      rw [hcomb, ihs]
      have h1 : 1 + ts.length = opts.max + 1 := by omega
      rw [h1]
    have hstep2 := rateLimitStep_fresh opts ck t2
      (runRequests opts ck (t1 :: ts) s0).2
      (Or.inr ⟨⟨opts.max + 1, t1 + opts.windowMs⟩, hlive, ht2⟩)
    constructor
    · rw [hstep2]
    · rw [hstep2]
      simp [setEntry]

/-! ## C9: the hash is recomputed exactly on password modification -/

theorem editFinish_password (body : EditBody) (u2 : TrackedUser) (saved : UserDoc)
    (resp : ProfileResp) (h : editFinish body u2 = .ok saved resp) :
    saved.password =
      (if u2.passwordModified then bcryptHash 10 u2.doc.password else u2.doc.password) := by
  unfold editFinish preSaveHook at h
  cases hn : body.name with
  | none =>
    rw [hn] at h
    by_cases hm : u2.passwordModified = true
    · simp only [hm, if_pos rfl, EditResult.ok.injEq] at h
      obtain ⟨h1, _⟩ := h
      subst h1
      simp [hm]
    · simp only [hm, if_false, if_neg, EditResult.ok.injEq] at h
      obtain ⟨h1, _⟩ := h
      subst h1
      simp [hm]
  | some n =>
    rw [hn] at h
    by_cases hne : n = ""
    · simp only [hne, if_pos rfl] at h
      by_cases hm : u2.passwordModified = true
      · simp only [hm, if_pos rfl, EditResult.ok.injEq] at h
        obtain ⟨h1, _⟩ := h
        subst h1
        simp [hm]
      · simp only [hm, if_false, if_neg, EditResult.ok.injEq] at h
        obtain ⟨h1, _⟩ := h
        subst h1
        simp [hm]
    · simp only [hne, if_false, if_neg] at h
      by_cases hm : u2.passwordModified = true
      · simp only [hm, if_pos rfl, EditResult.ok.injEq] at h
        obtain ⟨h1, _⟩ := h
        subst h1
        simp [hm]
      · simp only [hm, if_false, if_neg, EditResult.ok.injEq] at h
        obtain ⟨h1, _⟩ := h
        subst h1
        simp [hm]

theorem editPassword_falsy (body : EditBody) (u1 : TrackedUser)
    (hp : optTruthy body.password = false) :
    editPassword body u1 = editFinish body u1 := by
  cases hb : body.password with
  | none => simp [editPassword, hb]
  | some p =>
    have hpe : p = "" := by
      rw [hb] at hp
      simpa [optTruthy] using hp
    simp [editPassword, hb, hpe]

theorem editPassword_truthy (body : EditBody) (u1 : TrackedUser) (p : String)
    (hb : body.password = some p) (hp : p ≠ "") (hlen : ¬ p.length < 6) :
    editPassword body u1 =
      editFinish body ⟨⟨u1.doc.id, u1.doc.name, u1.doc.email, p, u1.doc.isAdmin⟩, true⟩ := by
  simp [editPassword, hb, hp, hlen]

theorem editPassword_short (body : EditBody) (u1 : TrackedUser) (p : String)
    (hb : body.password = some p) (hp : p ≠ "") (hlen : p.length < 6) :
    editPassword body u1 = .httpError 400 "Password must be at least 6 characters" := by
  simp [editPassword, hb, hp, hlen]

theorem editProfile_reaches_password (db : String → Option UserDoc)
    (body : EditBody) (u0 : TrackedUser) (saved : UserDoc) (resp : ProfileResp)
    (h : editProfile db body u0 = .ok saved resp) :
    ∃ u1 : TrackedUser, u1.passwordModified = u0.passwordModified ∧
      u1.doc.password = u0.doc.password ∧
      editProfile db body u0 = editPassword body u1 := by
  cases he : body.email with
  | none => exact ⟨u0, rfl, rfl, by simp [editProfile, he]⟩
  | some e =>
    by_cases hee : e = ""
    · exact ⟨u0, rfl, rfl, by simp [editProfile, he, hee]⟩
    · by_cases hev : emailValid e = true
      · cases hdb : db (normEmail e) with
        | none =>
          refine ⟨⟨⟨u0.doc.id, u0.doc.name, normEmail e, u0.doc.password, u0.doc.isAdmin⟩,
            u0.passwordModified⟩, rfl, rfl, ?_⟩
          simp [editProfile, he, hee, hev, hdb]
        | some other =>
          rw [editProfile, he] at h
          simp [hee, hev, hdb] at h
      · rw [editProfile, he] at h
        simp [hee, hev] at h

/-- C9: on a save through the profile edit of a freshly loaded
document, the stored password hash is recomputed exactly when a truthy
password field is part of the update — an edit supplying no password
(or an empty one) leaves the stored hash byte-for-byte unchanged,
whatever it does to name and email, and an edit supplying a valid
password stores the bcrypt hash of the new plaintext. -/
theorem editProfile_rehash_iff (db : String → Option UserDoc)
    (u0 : TrackedUser) (h0 : u0.passwordModified = false) (body : EditBody) :
    (optTruthy body.password = false →
      ∀ saved resp, editProfile db body u0 = .ok saved resp →
        saved.password = u0.doc.password) ∧
    (∀ p, body.password = some p → p ≠ "" →
      ∀ saved resp, editProfile db body u0 = .ok saved resp →
        saved.password = bcryptHash 10 p) := by
  constructor
  · intro hp saved resp h
    obtain ⟨u1, hmod, hpw, heq⟩ := editProfile_reaches_password db body u0 saved resp h
    rw [heq, editPassword_falsy body u1 hp] at h
    have := editFinish_password body u1 saved resp h
    rw [this, hmod, h0, if_neg (by simp), hpw]
  · intro p hb hp saved resp h
    obtain ⟨u1, hmod, hpw, heq⟩ := editProfile_reaches_password db body u0 saved resp h
    by_cases hlen : p.length < 6
    · rw [heq, editPassword_short body u1 p hb hp hlen] at h
      cases h
    · rw [heq, editPassword_truthy body u1 p hb hp hlen] at h
      have h2 := editFinish_password body
        ⟨⟨u1.doc.id, u1.doc.name, u1.doc.email, p, u1.doc.isAdmin⟩, true⟩ saved resp h
      simpa using h2

/-- C2 counterexample: for a limiter configured with max = 0, the
first request of a fresh window — which is the (max + 1)-th request
within that window — is admitted by the fresh-entry path instead of
being rejected with 429. -/
theorem rateLimit_max_zero_first_admitted :
    (rateLimitStep ⟨1000, 0, "m", "p"⟩ "k" 0 emptyStore).1 =
      RateOutcome.admitted 0 0 1 ∧
    (rateLimitStep ⟨1000, 0, "m", "p"⟩ "k" 0 emptyStore).1.isAdmitted = true := by
  exact ⟨by decide, by decide⟩

/-- Evaluation of the window behavior theorem for a limiter with
max = 1 and a 1000 ms window: the second request inside the window is
rejected with 429 and the final entry holds count 2. -/
theorem rateLimit_window_behavior_eval :
    (∃ ra, (runRequests ⟨1000, 1, "m", "p"⟩ "k" [0, 1] emptyStore).1.get? 1 =
      some (.rejected 429 ra 1 0 1 "m")) ∧
    (runRequests ⟨1000, 1, "m", "p"⟩ "k" [0, 1] emptyStore).2
        (rlKey ⟨1000, 1, "m", "p"⟩ "k") = some ⟨2, 1000⟩ := by
  have h := rateLimit_window_behavior ⟨1000, 1, "m", "p"⟩ "k" (by decide)
    emptyStore 0 [1] (Or.inl rfl) rfl
    (by
      intro t ht
      simp only [List.mem_singleton] at ht
      subst ht
      exact ⟨by omega, by decide⟩)
  exact ⟨h.2.1, h.2.2.1⟩

/-- Evaluation of the rehash theorem: a name-only edit leaves the
stored hash unchanged, and an edit with a new password stores the
bcrypt hash of the new plaintext. -/
theorem editProfile_rehash_iff_eval :
    (⟨"u1", "Bob", "alice@example.com", "h", false⟩ : UserDoc).password =
      demoUser.password ∧
    (⟨"u1", "Alice", "alice@example.com", bcryptHash 10 "newpass", false⟩ :
        UserDoc).password = bcryptHash 10 "newpass" :=
  ⟨(editProfile_rehash_iff (fun _ => none) ⟨demoUser, false⟩ rfl
      ⟨some "Bob", none, none⟩).1 rfl
      ⟨"u1", "Bob", "alice@example.com", "h", false⟩
      ⟨"u1", "Bob", "alice@example.com", false⟩ (by decide),
    (editProfile_rehash_iff (fun _ => none) ⟨demoUser, false⟩ rfl
      ⟨none, none, some "newpass"⟩).2 "newpass" rfl (by decide)
      ⟨"u1", "Alice", "alice@example.com", bcryptHash 10 "newpass", false⟩
      ⟨"u1", "Alice", "alice@example.com", false⟩ (by decide)⟩

/-! ## C10: email normalization -/

theorem char_ofNat_toNat {n : Nat} (hv : n.isValidChar) : (Char.ofNat n).toNat = n := by
  unfold Char.ofNat
  rw [dif_pos hv]
  rfl

theorem jsCharToLower_toNat_of_upper {c : Char}
    (h : 65 ≤ c.toNat ∧ c.toNat ≤ 90) : (jsCharToLower c).toNat = c.toNat + 32 := by
  have hv : (c.toNat + 32).isValidChar := Or.inl (by omega)
  rw [jsCharToLower, if_pos h]
  exact char_ofNat_toNat hv

theorem jsCharToLower_of_not_upper {c : Char}
    (h : ¬ (65 ≤ c.toNat ∧ c.toNat ≤ 90)) : jsCharToLower c = c := by
  unfold jsCharToLower
  rw [if_neg h]

theorem jsCharToLower_idem (c : Char) :
    jsCharToLower (jsCharToLower c) = jsCharToLower c := by
  by_cases h : 65 ≤ c.toNat ∧ c.toNat ≤ 90
  · have h1 := jsCharToLower_toNat_of_upper h
    apply jsCharToLower_of_not_upper
    rw [h1]
    omega
  · rw [jsCharToLower_of_not_upper h]
    exact jsCharToLower_of_not_upper h

theorem isJsWhitespace_jsCharToLower (c : Char) :
    isJsWhitespace (jsCharToLower c) = isJsWhitespace c := by
  by_cases h : 65 ≤ c.toNat ∧ c.toNat ≤ 90
  · have h1 := jsCharToLower_toNat_of_upper h
    have hl : isJsWhitespace (jsCharToLower c) = false := by
      simp only [isJsWhitespace, h1, decide_eq_false_iff_not]
      omega
    have hr : isJsWhitespace c = false := by
      simp only [isJsWhitespace, decide_eq_false_iff_not]
      omega
    rw [hl, hr]
  · rw [jsCharToLower_of_not_upper h]

theorem dropLeadingWs_map_lower (l : List Char) :
    dropLeadingWs (l.map jsCharToLower) = (dropLeadingWs l).map jsCharToLower := by
  induction l with
  | nil => rfl
  | cons c cs ih =>
    simp only [List.map_cons, dropLeadingWs, isJsWhitespace_jsCharToLower]
    cases hw : isJsWhitespace c with
    | true => simpa [hw] using ih
    | false => simp [hw]

theorem wsHeadFree_dropLeadingWs (l : List Char) : wsHeadFree (dropLeadingWs l) := by
  induction l with
  | nil => trivial
  | cons c cs ih =>
    cases hw : isJsWhitespace c with
    | true => simpa [dropLeadingWs, hw] using ih
    | false =>
      simp only [dropLeadingWs, hw]
      exact hw

theorem dropLeadingWs_eq_self {l : List Char} (h : wsHeadFree l) :
    dropLeadingWs l = l := by
  cases l with
  | nil => rfl
  | cons c cs =>
    have h2 : isJsWhitespace c = false := h
    simp [dropLeadingWs, h2]

theorem wsHeadFree_reverse_dropLeadingWs {l : List Char}
    (h : wsHeadFree l.reverse) : wsHeadFree (dropLeadingWs l).reverse := by
  induction l with
  | nil => trivial
  | cons c cs ih =>
    cases hw : isJsWhitespace c with
    | false => simpa [dropLeadingWs, hw] using h
    | true =>
      simp only [dropLeadingWs, hw, if_pos rfl]
      apply ih
      cases hcs : cs.reverse with
      | nil => trivial
      | cons d ds =>
        rw [List.reverse_cons, hcs] at h
        exact h

theorem trimList_idem (l : List Char) : trimList (trimList l) = trimList l := by
  have h1 : wsHeadFree (trimList l) := wsHeadFree_dropLeadingWs _
  have h2 : wsHeadFree (trimList l).reverse := by
    show wsHeadFree (dropLeadingWs (dropLeadingWs l.reverse).reverse).reverse
    apply wsHeadFree_reverse_dropLeadingWs
    rw [List.reverse_reverse]
    exact wsHeadFree_dropLeadingWs _
  show dropLeadingWs ((dropLeadingWs (trimList l).reverse).reverse) = trimList l
  rw [dropLeadingWs_eq_self h2, List.reverse_reverse, dropLeadingWs_eq_self h1]

theorem trimList_map_lower (l : List Char) :
    trimList (l.map jsCharToLower) = (trimList l).map jsCharToLower := by
  show dropLeadingWs ((dropLeadingWs (l.map jsCharToLower).reverse).reverse) = _
  rw [← List.map_reverse, dropLeadingWs_map_lower, ← List.map_reverse,
    dropLeadingWs_map_lower]
  rfl

theorem jsToLower_idem (s : String) : jsToLower (jsToLower s) = jsToLower s := by
  simp only [jsToLower, List.map_map]
  congr 1
  apply List.map_congr_left
  intro c _
  exact jsCharToLower_idem c

theorem normEmail_idem (e : String) : normEmail (normEmail e) = normEmail e := by
  simp only [normEmail, jsTrim, jsToLower]
  congr 1
  have hmm : List.map jsCharToLower (trimList (List.map jsCharToLower e.data)) =
      trimList (List.map jsCharToLower e.data) := by
    rw [← trimList_map_lower, List.map_map]
    have hcomp : List.map (jsCharToLower ∘ jsCharToLower) e.data =
        List.map jsCharToLower e.data := by
      apply List.map_congr_left
      intro c _
      exact jsCharToLower_idem c
    rw [hcomp]
  rw [hmm, trimList_idem]

theorem preSaveHook_email (u : TrackedUser) : (preSaveHook u).email = u.doc.email := by
  unfold preSaveHook
  split <;> rfl

theorem editFinish_email (body : EditBody) (u2 : TrackedUser) (saved : UserDoc)
    (resp : ProfileResp) (h : editFinish body u2 = .ok saved resp) :
    saved.email = u2.doc.email := by
  unfold editFinish at h
  simp only [EditResult.ok.injEq] at h
  obtain ⟨h1, _⟩ := h
  subst h1
  rw [preSaveHook_email]
  cases hn : body.name with
  | none => rfl
  | some n => by_cases hne : n = "" <;> simp [hne]

theorem editPassword_email (body : EditBody) (u1 : TrackedUser) (saved : UserDoc)
    (resp : ProfileResp) (h : editPassword body u1 = .ok saved resp) :
    saved.email = u1.doc.email := by
  cases hb : body.password with
  | none =>
    rw [editPassword, hb] at h
    exact editFinish_email body u1 saved resp h
  | some p =>
    rw [editPassword, hb] at h
    by_cases hpe : p = ""
    · simp only [hpe, if_pos rfl] at h
      exact editFinish_email body u1 saved resp h
    · simp only [hpe, if_false, if_neg] at h
      by_cases hlen : p.length < 6
      · simp only [hlen, if_pos rfl] at h
        cases h
      · simp only [hlen, if_false, if_neg] at h
        exact editFinish_email body
          ⟨⟨u1.doc.id, u1.doc.name, u1.doc.email, p, u1.doc.isAdmin⟩, true⟩ saved resp h

/-- C10: every email the user controllers write to or look up in the
principal store is first lowercased and trimmed: the outcome of
createUser, loginUser and editProfile depends on the store only
through the normalized email key; the email stored by a successful
create or edit is the normalized form of the supplied one;
normalization is idempotent, so stored emails are in lowercase-trimmed
form; and login succeeds for any letter-case variant of a registered
email. -/
theorem email_normalization :
    (∀ db newId secret now body stored resp e,
      createUser db newId secret now body = .created stored resp →
      body.email = some e →
      stored.email = normEmail e ∧ resp.email = normEmail e) ∧
    (∀ (db db' : String → Option UserDoc) newId secret now body,
      db (normEmail (body.email.getD "")) = db' (normEmail (body.email.getD "")) →
      createUser db newId secret now body = createUser db' newId secret now body) ∧
    (∀ (db db' : String → Option UserDoc) secret now body,
      db (normEmail (body.email.getD "")) = db' (normEmail (body.email.getD "")) →
      loginUser db secret now body = loginUser db' secret now body) ∧
    (∀ (db db' : String → Option UserDoc) body u0,
      db (normEmail (body.email.getD "")) = db' (normEmail (body.email.getD "")) →
      editProfile db body u0 = editProfile db' body u0) ∧
    (∀ db body u0 saved resp e, editProfile db body u0 = .ok saved resp →
      body.email = some e → e ≠ "" → saved.email = normEmail e) ∧
    (∀ e, normEmail (normEmail e) = normEmail e) ∧
    (∀ (db : String → Option UserDoc) secret now u e v p,
      v ≠ "" → p ≠ "" → normEmail v = normEmail e →
      db (normEmail e) = some u → verifyPassword p u.password = true →
      loginUser db secret now ⟨some v, some p⟩ =
        .ok ⟨u.id, u.name, u.email, u.isAdmin,
          genToken secret u.id now, "User logged in successfully"⟩) := by
  refine ⟨?_, ?_, ?_, ?_, ?_, normEmail_idem, ?_⟩
  · intro db newId secret now body stored resp e h hbe
    unfold createUser at h
    rcases body with ⟨n?, e?, p?, a, r⟩
    simp only at hbe
    subst hbe
    cases n? with
    | none => cases p? <;> cases h
    | some n =>
      cases p? with
      | none => cases h
      | some p =>
        dsimp only at h
        by_cases h1 : n = "" ∨ e = "" ∨ p = ""
        · rw [if_pos h1] at h
          cases h
        · rw [if_neg h1] at h
          by_cases h2 : ¬ emailValid e = true
          · rw [if_pos h2] at h
            cases h
          · rw [if_neg h2] at h
            by_cases h3 : p.length < 6
            · rw [if_pos h3] at h
              cases h
            · rw [if_neg h3] at h
              cases hdb : db (normEmail e) with
              | some other =>
                rw [hdb] at h
                cases h
              | none =>
                rw [hdb] at h
                simp only [CreateResult.created.injEq] at h
                obtain ⟨ha, hb⟩ := h
                subst ha
                subst hb
                exact ⟨rfl, rfl⟩
  · intro db db' newId secret now body hagree
    unfold createUser
    rcases body with ⟨n?, e?, p?, a, r⟩
    cases e? with
    | none => cases n? <;> cases p? <;> rfl
    | some e =>
      have hag : db (normEmail e) = db' (normEmail e) := by simpa using hagree
      cases n? with
      | none => cases p? <;> rfl
      | some n =>
        cases p? with
        | none => rfl
        | some p =>
          dsimp only
          rw [hag]
  · intro db db' secret now body hagree
    unfold loginUser
    rcases body with ⟨e?, p?⟩
    cases e? with
    | none => cases p? <;> rfl
    | some e =>
      have hag : db (normEmail e) = db' (normEmail e) := by simpa using hagree
      cases p? with
      | none => rfl
      | some p =>
        dsimp only
        rw [hag]
  · intro db db' body u0 hagree
    unfold editProfile
    cases he : body.email with
    | none => rfl
    | some e =>
      have hag : db (normEmail e) = db' (normEmail e) := by
        rw [he] at hagree
        simpa using hagree
      simp only [hag]
  · intro db body u0 saved resp e h hbe hee
    rw [editProfile, hbe] at h
    simp only [hee, if_false, if_neg] at h
    by_cases hev : emailValid e = true
    · simp only [hev, if_true, if_pos, Bool.not_true] at h
      cases hdb : db (normEmail e) with
      | some other =>
        rw [hdb] at h
        cases h
      | none =>
        rw [hdb] at h
        exact editPassword_email body _ saved resp h
    · have hev2 : emailValid e = false := by
        cases hx : emailValid e
        · rfl
        · exact absurd hx hev
      rw [hev2] at h
      simp at h
  · intro db secret now u e v p hv hp hvar hdb hverify
    unfold loginUser
    dsimp only
    have hcond : ¬ (v = "" ∨ p = "") := by
      push_neg
      exact ⟨hv, hp⟩
    rw [if_neg hcond, hvar, hdb]
    dsimp only
    rw [if_pos hverify]

/-- Evaluation of the normalization theorem: a registration stores the
lowercased trimmed email, and login succeeds with an upper-case,
padded variant of the registered email. -/
theorem email_normalization_eval :
    ((⟨"u1", "Al", "alice@example.com", bcryptHash 10 "123456", false⟩ :
        UserDoc).email = normEmail "Alice@Example.COM" ∧
      (⟨"u1", "Al", "alice@example.com", false, genToken "s" "u1" 0,
          "User created successfully"⟩ : RespData).email =
        normEmail "Alice@Example.COM") ∧
    loginUser (fun s => if s = "alice@example.com" then some demoUserHashed else none)
        "s" 0 ⟨some " Alice@Example.COM", some "123456"⟩ =
      .ok ⟨"u1", "Alice", "alice@example.com", false, genToken "s" "u1" 0,
        "User logged in successfully"⟩ :=
  ⟨email_normalization.1 (fun _ => none) "u1" "s" 0
      ⟨some "Al", some "Alice@Example.COM", some "123456", none, none⟩
      ⟨"u1", "Al", "alice@example.com", bcryptHash 10 "123456", false⟩
      ⟨"u1", "Al", "alice@example.com", false, genToken "s" "u1" 0,
        "User created successfully"⟩ "Alice@Example.COM" (by decide) rfl,
    email_normalization.2.2.2.2.2.2
      (fun s => if s = "alice@example.com" then some demoUserHashed else none)
      "s" 0 demoUserHashed "alice@example.com" " Alice@Example.COM" "123456"
      (by decide) (by decide) (by decide) (by decide) (by decide)⟩

end ApiStarter
